import Mathlib

/-!
Verification development for the national_ml watershed patch pipeline.

The repository ships a Google Earth Engine export script
(data/script/GEE_script_sample.js) together with documentation of a local
processing pipeline (export-folder reconciliation, patch-grid generation,
multi-source patch alignment).  The export script is embedded directly from
the source; the local pipeline components are not present in the source tree,
so they are modelled from the specification text and marked as such in their
doc comments.

Coordinates and ground distances are exact rationals; modification times are
integers; machine arithmetic plays no role in the modelled algorithms.
-/

namespace NationalML

/-- A point in a planar coordinate reference system, in ground units. -/
structure Pt where
  x : ℚ
  y : ℚ
deriving DecidableEq, Repr

/-- An axis-aligned rectangle given by its min and max corners. -/
structure Rect where
  xmin : ℚ
  ymin : ℚ
  xmax : ℚ
  ymax : ℚ
deriving DecidableEq, Repr

/-- Width of a rectangle. -/
def Rect.width (r : Rect) : ℚ := r.xmax - r.xmin

/-- Height of a rectangle. -/
def Rect.height (r : Rect) : ℚ := r.ymax - r.ymin

/-- Intersection of two axis-aligned rectangles (possibly degenerate). -/
def Rect.inter (r s : Rect) : Rect :=
  ⟨max r.xmin s.xmin, max r.ymin s.ymin, min r.xmax s.xmax, min r.ymax s.ymax⟩

/-- Area of a rectangle, zero when it is degenerate or inverted. -/
def Rect.area (r : Rect) : ℚ :=
  max 0 (r.xmax - r.xmin) * max 0 (r.ymax - r.ymin)

/-- Whether a point lies in a rectangle (closed on all sides). -/
def Rect.containsPt (r : Rect) (p : Pt) : Bool :=
  decide (r.xmin ≤ p.x) && decide (p.x ≤ r.xmax) &&
  decide (r.ymin ≤ p.y) && decide (p.y ≤ r.ymax)

/-- Edges of a polygon given by its vertex list, including the closing edge. -/
def edges (poly : List Pt) : List (Pt × Pt) :=
  poly.zip (poly.rotate 1)

/-- Whether the horizontal ray from a point to the right crosses an edge,
in the standard even-odd ray-casting convention. -/
def crossesRay (p : Pt) (e : Pt × Pt) : Bool :=
  let a := e.1
  let b := e.2
  (decide (a.y > p.y) != decide (b.y > p.y)) &&
    decide (p.x < a.x + (p.y - a.y) * (b.x - a.x) / (b.y - a.y))

/-- Even-odd point-in-polygon test by ray casting. -/
def pointInPoly (poly : List Pt) (p : Pt) : Bool :=
  ((edges poly).filter (crossesRay p)).length % 2 == 1

/-- Dot product of two points viewed as vectors. -/
def dot (u v : Pt) : ℚ := u.x * v.x + u.y * v.y

/-- Vector difference of two points. -/
def sub (u v : Pt) : Pt := ⟨u.x - v.x, u.y - v.y⟩

/-- Squared distance from a point to a segment, computed rationally via the
clamped projection parameter. -/
def segDistSq (p : Pt) (e : Pt × Pt) : ℚ :=
  let d := sub e.2 e.1
  let l2 := dot d d
  if l2 = 0 then dot (sub p e.1) (sub p e.1)
  else
    let t := max 0 (min 1 (dot (sub p e.1) d / l2))
    let proj : Pt := ⟨e.1.x + t * d.x, e.1.y + t * d.y⟩
    dot (sub p proj) (sub p proj)

/-- Modelled from the spec: membership in the boundary geometry buffered by
distance b (section 4.3, PatchGridGenerator, which is absent from the source
tree).  A point is inside the buffered boundary when it is inside the polygon
or within distance b of its boundary; a genuine point-in-polygon test, not
bounding-box containment. -/
def inBuffered (poly : List Pt) (b : ℚ) (p : Pt) : Bool :=
  pointInPoly poly p || (edges poly).any (fun e => decide (segDistSq p e ≤ b * b))

/-- Bounding rectangle of a polygon's vertices. -/
def boundingRect (poly : List Pt) : Rect :=
  match poly with
  | [] => ⟨0, 0, 0, 0⟩
  | q :: qs =>
    qs.foldl (fun r p => ⟨min r.xmin p.x, min r.ymin p.y, max r.xmax p.x, max r.ymax p.y⟩)
      ⟨q.x, q.y, q.x, q.y⟩

/-- Rectangle expanded outward by a buffer distance on every side. -/
def bufferRect (r : Rect) (b : ℚ) : Rect :=
  ⟨r.xmin - b, r.ymin - b, r.xmax + b, r.ymax + b⟩

/-- Area-weighted centroid of a polygon, falling back to the center of the
bounding rectangle for degenerate polygons. -/
def polyCentroid (poly : List Pt) : Pt :=
  let es := edges poly
  let a2 := es.foldl (fun s e => s + (e.1.x * e.2.y - e.2.x * e.1.y)) 0
  if a2 = 0 then
    let r := boundingRect poly
    ⟨(r.xmin + r.xmax) / 2, (r.ymin + r.ymax) / 2⟩
  else
    let cx := es.foldl (fun s e => s + (e.1.x + e.2.x) * (e.1.x * e.2.y - e.2.x * e.1.y)) 0
    let cy := es.foldl (fun s e => s + (e.1.y + e.2.y) * (e.1.x * e.2.y - e.2.x * e.1.y)) 0
    ⟨cx / (3 * a2), cy / (3 * a2)⟩

/-- Modelled from the spec: clamp a patch-center coordinate so that the patch
footprint of extent s stays inside the interval, taking the midpoint when the
interval is too small to contain a footprint (section 4.3 edge case). -/
def clampCoord (lo hi c s : ℚ) : ℚ :=
  if hi - lo < s then (lo + hi) / 2
  else min (max c (lo + s / 2)) (hi - s / 2)

/-- Modelled from the spec: a watershed counts as smaller than one patch when
its buffered bounding rectangle is strictly smaller than the patch extent in
both dimensions (section 4.3 edge case). -/
def smallWatershed (r : Rect) (s : ℚ) : Bool :=
  decide (r.width < s) && decide (r.height < s)

/-- Number of grid lines with spacing d covering the interval from lo to hi,
starting at lo. -/
def gridSteps (lo hi d : ℚ) : ℕ :=
  if lo ≤ hi then ((hi - lo) / d).floor.toNat + 1 else 0

/-- Modelled from the spec: the regular grid over a bounding rectangle with
spacing d, anchored at the minimum corner and enumerated in row-major scan
order, rows bottom-up and left-to-right within a row (section 4.3). -/
def rowMajorGridPts (r : Rect) (d : ℚ) : List Pt :=
  (List.range (gridSteps r.ymin r.ymax d)).flatMap (fun j =>
    (List.range (gridSteps r.xmin r.xmax d)).map (fun i =>
      ⟨r.xmin + (i : ℚ) * d, r.ymin + (j : ℚ) * d⟩))

/-- Modelled from the spec: the single candidate center of a watershed smaller
than one patch, the boundary centroid clamped toward the buffered bounding
rectangle so the footprint of extent s stays inside where possible (section
4.3 edge case). -/
def clampedCentroid (poly : List Pt) (b s : ℚ) : Pt :=
  let r := bufferRect (boundingRect poly) b
  ⟨clampCoord r.xmin r.xmax (polyCentroid poly).x s,
   clampCoord r.ymin r.ymax (polyCentroid poly).y s⟩

/-- Modelled from the spec: PatchGridGenerator center points (section 4.3,
component absent from the source tree).  Lay a grid with spacing equal to the
stride d over the buffered bounding rectangle, anchored at its minimum corner,
and keep a center only if it passes the buffered point-in-polygon test; for a
watershed smaller than one patch, yield at most the single clamped centroid
center, likewise kept only if it passes the containment test. -/
def genCenterPts (poly : List Pt) (b s d : ℚ) : List Pt :=
  let r := bufferRect (boundingRect poly) b
  if smallWatershed r s then
    if inBuffered poly b (clampedCentroid poly b s) then [clampedCentroid poly b s] else []
  else
    (rowMajorGridPts r d).filter (inBuffered poly b)

/-- A deterministic patch center: watershed id, sequence index assigned at
generation time, and a coordinate in the reference (DEM) CRS. -/
structure PatchCenter where
  hucId : String
  idx : ℕ
  pt : Pt
deriving DecidableEq, Repr

/-- Modelled from the spec: the full PatchGridGenerator output, indexing the
center points in their deterministic row-major emission order. -/
def genCenters (hid : String) (poly : List Pt) (b s d : ℚ) : List PatchCenter :=
  (genCenterPts poly b s d).enum.map (fun q => ⟨hid, q.1, q.2⟩)

/-- An invertible axis-aligned affine coordinate transform, used to map window
bounds from the reference (DEM) CRS into a source CRS. -/
structure CrsMap where
  sx : ℚ
  tx : ℚ
  sy : ℚ
  ty : ℚ
deriving DecidableEq, Repr

/-- Apply an axis-aligned affine transform to a point. -/
def CrsMap.apply (t : CrsMap) (p : Pt) : Pt :=
  ⟨t.sx * p.x + t.tx, t.sy * p.y + t.ty⟩

/-- Inverse of an axis-aligned affine transform (meaningful when both scale
factors are nonzero). -/
def CrsMap.inv (t : CrsMap) : CrsMap :=
  ⟨1 / t.sx, -(t.tx / t.sx), 1 / t.sy, -(t.ty / t.sy)⟩

/-- Image of a rectangle under an axis-aligned affine transform, renormalized
so min and max corners stay ordered even for negative scale factors. -/
def mapRect (t : CrsMap) (r : Rect) : Rect :=
  let p := t.apply ⟨r.xmin, r.ymin⟩
  let q := t.apply ⟨r.xmax, r.ymax⟩
  ⟨min p.x q.x, min p.y q.y, max p.x q.x, max p.y q.y⟩

/-- A raster source: native resolution, CRS name, the transform from the
reference CRS into its own CRS, its extent and nodata value in its own CRS,
and its stored pixel values as a function of source-CRS location. -/
structure RasterSource where
  name : String
  res : ℚ
  crs : String
  toSrc : CrsMap
  extent : Rect
  nodata : ℤ
  values : Pt → ℤ

/-- Modelled from the spec: the ground-space window of a patch, center plus or
minus half the patch extent in ground units (section 4.4, MultiSourceAligner,
which is absent from the source tree). -/
def groundWindow (c : Pt) (s : ℚ) : Rect :=
  ⟨c.x - s / 2, c.y - s / 2, c.x + s / 2, c.y + s / 2⟩

/-- Modelled from the spec: the patch window expressed in a source's own CRS,
obtained by reprojecting the window bounds, not the pixel data (section 4.4). -/
def srcWindowOf (src : RasterSource) (c : Pt) (s : ℚ) : Rect :=
  mapRect src.toSrc (groundWindow c s)

/-- Fraction of a window's area that overlaps a raster extent; zero for a
degenerate window. -/
def overlapFrac (w ext : Rect) : ℚ :=
  if w.area = 0 then 0 else (w.inter ext).area / w.area

/-- Number of pixels needed to span a ground width at a given resolution. -/
def pixCount (w res : ℚ) : ℕ :=
  (w / res).ceil.toNat

/-- Ground-CRS location of the center of pixel (i, j) of a window read at a
given resolution. -/
def pixelCenter (w : Rect) (res : ℚ) (i j : ℕ) : Pt :=
  ⟨w.xmin + ((i : ℚ) + 1 / 2) * res, w.ymin + ((j : ℚ) + 1 / 2) * res⟩

/-- Modelled from the spec: read one pixel of a window from a source, filling
locations outside the source's extent with the source's nodata value rather
than failing (section 4.4). -/
def readPix (src : RasterSource) (w : Rect) (i j : ℕ) : ℤ :=
  let p := pixelCenter w src.res i j
  if src.extent.containsPt p then src.values p else src.nodata

/-- One aligned patch: source identity, its own CRS and resolution, the window
footprint in the source CRS together with the transform that produced it, the
per-source pixel counts, the validity flag, and the pixel values. -/
structure Patch where
  srcName : String
  crs : String
  res : ℚ
  toSrc : CrsMap
  srcWindow : Rect
  nx : ℕ
  ny : ℕ
  valid : Bool
  pix : ℕ → ℕ → ℤ

/-- Ground footprint of a patch, recovered from its source-CRS window through
the inverse of its CRS transform. -/
def Patch.groundFootprint (p : Patch) : Rect :=
  mapRect p.toSrc.inv p.srcWindow

/-- Modelled from the spec: extract one source's patch for a center.  The
window is computed in ground space from the shared ground extent s, its bounds
are reprojected into the source CRS, out-of-extent pixels read as nodata, and
the patch is marked invalid when the overlap fraction falls below the
configured minimum minOv (section 4.4). -/
def mkPatch (minOv s : ℚ) (c : Pt) (src : RasterSource) : Patch :=
  let w := srcWindowOf src c s
  { srcName := src.name
    crs := src.crs
    res := src.res
    toSrc := src.toSrc
    srcWindow := w
    nx := pixCount w.width src.res
    ny := pixCount w.height src.res
    valid := decide (minOv ≤ overlapFrac w src.extent)
    pix := readPix src w }

/-- A patch stack: the per-source extraction results for one center, in
catalog order with the reference DEM source first. -/
structure PatchStack where
  center : Pt
  results : List Patch

/-- Modelled from the spec: MultiSourceAligner builds the stack by extracting
every source independently; no source's failure affects another (sections 4.4
and 7). -/
def mkStack (minOv s : ℚ) (c : Pt) (sources : List RasterSource) : PatchStack :=
  ⟨c, sources.map (mkPatch minOv s c)⟩

/-- The valid patches of a stack; invalid ones are recorded but excluded. -/
def PatchStack.validPatches (st : PatchStack) : List Patch :=
  st.results.filter (fun p => p.valid)

/-- Modelled from the spec: a stack is usable exactly when its reference
source (the DEM, first in catalog order) produced a valid patch (section
4.4). -/
def PatchStack.usable (st : PatchStack) : Bool :=
  match st.results with
  | [] => false
  | p :: _ => p.valid

/-- The seven artifact types delivered per watershed (section 4.1). -/
inductive ArtifactType
  | boundary
  | bbox
  | dem
  | optical
  | thermal
  | sar
  | flowdir
deriving DecidableEq, Repr

/-- The artifact types in their fixed enumeration order. -/
def allTypes : List ArtifactType :=
  [ArtifactType.boundary, ArtifactType.bbox, ArtifactType.dem, ArtifactType.optical,
   ArtifactType.thermal, ArtifactType.sar, ArtifactType.flowdir]

/-- Modelled from the spec: the fixed type-specific filename each artifact
receives in the canonical directory (sections 4.1 and 6). -/
def canonicalFilename : ArtifactType → String
  | ArtifactType.boundary => "boundary.geojson"
  | ArtifactType.bbox => "bbox.geojson"
  | ArtifactType.dem => "DEM.tif"
  | ArtifactType.optical => "optical.tif"
  | ArtifactType.thermal => "thermal.tif"
  | ArtifactType.sar => "SAR.tif"
  | ArtifactType.flowdir => "flowdir.tif"

/-- A file synced from the export service: its artifact type, modification
time, and content identity. -/
structure XFile where
  atype : ArtifactType
  mtime : ℤ
  content : String
deriving DecidableEq, Repr

/-- An export folder as found under the root export directory. -/
structure Folder where
  name : String
  files : List XFile
deriving DecidableEq, Repr

/-- Whether a character is a decimal digit. -/
def isDigitCh (c : Char) : Bool :=
  decide ('0' ≤ c) && decide (c ≤ '9')

/-- Helper for stripDupSuffix, working on the reversed character list: peel a
trailing close paren, one or more digits, an open paren and a space. -/
def stripDupAux : List Char → Option (List Char)
  | ')' :: rest =>
    match rest.takeWhile isDigitCh, rest.dropWhile isDigitCh with
    | [], _ => none
    | _ :: _, '(' :: ' ' :: base => some base
    | _, _ => none
  | _ => none

/-- Modelled from the spec: remove one trailing duplicate marker of the form
space, open paren, digits, close paren that the external exporter appends to
folder names (sections 3 and 4.1); names without the marker are unchanged. -/
def stripDupSuffix (s : String) : String :=
  match stripDupAux s.data.reverse with
  | some base => ⟨base.reverse⟩
  | none => s

/-- Modelled from the spec: the candidate files of one artifact type for one
watershed group, tagged with the name of the folder supplying them (section
4.1, ExportReconciler, which is absent from the source tree). -/
def candidatesFor (folders : List Folder) (k : String) (t : ArtifactType) :
    List (String × XFile) :=
  (folders.filter (fun f => stripDupSuffix f.name == k)).flatMap
    (fun f => (f.files.filter (fun x => x.atype == t)).map (fun x => (f.name, x)))

/-- Most recent modification time among candidates, zero for no candidates. -/
def maxMtime : List (String × XFile) → ℤ
  | [] => 0
  | c :: cs => cs.foldl (fun m x => max m x.2.mtime) c.2.mtime

/-- Candidate whose folder name is lexicographically smallest, scanning left
to right from a first candidate. -/
def lexMinFold : (String × XFile) → List (String × XFile) → (String × XFile)
  | a, [] => a
  | a, b :: bs => lexMinFold (if b.1 < a.1 then b else a) bs

/-- Modelled from the spec: merge policy of ExportReconciler (section 4.1).
Keep the candidates whose modification time is within the tolerance of the
most recent one, and among those prefer the lexicographically first folder
name, so a strictly newest file always wins and near-simultaneous exports
fall back to the lowest-suffix folder. -/
def selectBest (tol : ℤ) (cands : List (String × XFile)) : Option (String × XFile) :=
  match cands.filter (fun x => decide (maxMtime cands - x.2.mtime ≤ tol)) with
  | [] => none
  | e :: es => some (lexMinFold e es)

/-- One entry of a canonical directory: the artifact type, the fixed filename
it is stored under, and the selected file. -/
structure CanonEntry where
  atype : ArtifactType
  fname : String
  file : XFile
deriving DecidableEq, Repr

/-- A canonical per-watershed directory produced by reconciliation. -/
structure CanonDir where
  key : String
  entries : List CanonEntry
deriving DecidableEq, Repr

/-- Modelled from the spec: reconcile one watershed group into its canonical
directory, selecting at most one file per artifact type and storing it under
the fixed type-specific filename (section 4.1). -/
def reconcileKey (tol : ℤ) (folders : List Folder) (k : String) : CanonDir :=
  ⟨k, allTypes.filterMap (fun t =>
      (selectBest tol (candidatesFor folders k t)).map
        (fun c => ⟨t, canonicalFilename t, c.2⟩))⟩

/-- Watershed grouping keys of a root export directory: folder names with the
duplicate marker stripped, deduplicated in first-appearance order. -/
def keysOf (folders : List Folder) : List String :=
  (folders.map (fun f => stripDupSuffix f.name)).dedup

/-- Modelled from the spec: ExportReconciler over a root export directory,
producing exactly one canonical directory per distinct watershed key (section
4.1). -/
def reconcile (tol : ℤ) (folders : List Folder) : List CanonDir :=
  (keysOf folders).map (reconcileKey tol folders)

/-- View a canonical directory as a folder, as a second reconciliation run
over the reconciled state would see it. -/
def CanonDir.toFolder (cd : CanonDir) : Folder :=
  ⟨cd.key, cd.entries.map (fun e => e.file)⟩

/-! Embedding of data/script/GEE_script_sample.js.  Geometry and image
operations of the remote service are represented syntactically, mirroring the
expressions the script builds; the Landsat and Sentinel-1 median composites
are abstracted to named assets, since no claim depends on their internals. -/

/-- A geometry expression as built by the export script. -/
inductive GeomExpr
  | multiPolygon (coords : String)
  | buffer (g : GeomExpr) (d : ℚ)
  | boundsOf (g : GeomExpr)
deriving DecidableEq, Repr

/-- A resampling method of the remote service. -/
inductive ResampleMethod
  | nearest
  | bilinear
  | bicubic
deriving DecidableEq, Repr

/-- An image expression as built by the export script. -/
inductive ImgExpr
  | asset (a : String)
  | selectBand (e : ImgExpr) (band : String)
  | resampleAs (e : ImgExpr) (m : ResampleMethod)
  | reproject (e : ImgExpr) (crs : String) (scale : ℚ)
  | clip (e : ImgExpr) (g : GeomExpr)
  | toFloat (e : ImgExpr)
  | toUint8 (e : ImgExpr)
deriving DecidableEq, Repr

/-- Resampling method in force for an image expression: the innermost
explicit resampleAs, and otherwise the service default of nearest neighbor
(the script calls no resample, relying on that default for reproject). -/
def resampleOf : ImgExpr → ResampleMethod
  | ImgExpr.asset _ => ResampleMethod.nearest
  | ImgExpr.selectBand e _ => resampleOf e
  | ImgExpr.resampleAs _ m => m
  | ImgExpr.reproject e _ _ => resampleOf e
  | ImgExpr.clip e _ => resampleOf e
  | ImgExpr.toFloat e => resampleOf e
  | ImgExpr.toUint8 e => resampleOf e

/-- Kind of an export task of the script: vector table or image. -/
inductive TaskKind
  | table
  | image
deriving DecidableEq, Repr

/-- One export task submitted by the script.  Table exports carry the
geometry of their features and no region, scale or CRS; image exports carry
region, CRS, scale and the exported image expression. -/
structure ExportTask where
  kind : TaskKind
  descr : String
  folder : String
  fileStem : String
  region : Option GeomExpr
  geom : Option GeomExpr
  crs : Option String
  scale : Option ℚ
  image : Option ImgExpr
deriving DecidableEq, Repr

/-- The effective geometry an export task covers: its region parameter for
image exports, the geometry of its features for table exports. -/
def effRegion (t : ExportTask) : Option GeomExpr :=
  match t.region with
  | some g => some g
  | none => t.geom

/-- Explicit target CRS for the DEM and derived products, from line 25 of the
script: the native CRS of USGS/3DEP/10m. -/
def targetDemCRS : String := "EPSG:4269"

/-- Buffer distance in meters, from line 9 of the script. -/
def bufferDistanceMeters : ℚ := 5000

/-- Main Drive folder name, from line 12 of the script. -/
def driveFolder : String := "GEE_HUC_Exports_With_Rect_Vector_CRSfix"

/-- Whether a character survives the sanitizing regex of line 94 of the
script, which keeps ASCII letters, digits, underscore, dot and hyphen. -/
def allowedChar (c : Char) : Bool :=
  (decide ('a' ≤ c) && decide (c ≤ 'z')) ||
  (decide ('A' ≤ c) && decide (c ≤ 'Z')) ||
  (decide ('0' ≤ c) && decide (c ≤ '9')) ||
  c == '_' || c == '.' || c == '-'

/-- The cleanName computation of line 94: every character outside the allowed
class is replaced by an underscore. -/
def cleanName (s : String) : String :=
  ⟨s.data.map (fun c => if allowedChar c then c else '_')⟩

/-- The baseFilenameForFolder computation of line 95 of the script. -/
def baseFilenameForFolder (hucId nm : String) : String :=
  "HUC8_" ++ hucId ++ "_" ++ cleanName nm

/-- The per-watershed folder name, applying the Unknown fallback of line 91
when the feature carries no name attribute. -/
def hucFolderName (hucId : String) (nm : Option String) : String :=
  baseFilenameForFolder hucId (nm.getD "Unknown")

/-- The flow-direction image expression built at lines 160-172 of the script:
the MERIT Hydro dir band, reprojected to the DEM CRS at 10 m scale with no
explicit resample call, then clipped to the export rectangle. -/
def flowDirImage (coords : String) : ImgExpr :=
  ImgExpr.toUint8 (ImgExpr.clip
    (ImgExpr.reproject (ImgExpr.selectBand (ImgExpr.asset "MERIT/Hydro/v1_0_1") "dir")
      targetDemCRS 10)
    (GeomExpr.boundsOf (GeomExpr.buffer (GeomExpr.multiPolygon coords) bufferDistanceMeters)))

/-- The seven per-HUC export tasks created by the loop at lines 88-180 of the
script, in creation order: buffered polygon boundary, bounding box, DEM,
Landsat optical, Landsat thermal, SAR VV, and resampled flow direction. -/
def hucExportTasks (coords hucId nm : String) : List ExportTask :=
  let base := baseFilenameForFolder hucId nm
  let folder := driveFolder ++ "/" ++ base
  let buffered := GeomExpr.buffer (GeomExpr.multiPolygon coords) bufferDistanceMeters
  let rect := GeomExpr.boundsOf buffered
  [ { kind := TaskKind.table, descr := "Buffered_Polygon_Boundary_Export_" ++ hucId,
      folder := folder, fileStem := base ++ "_5km_Buffered_Polygon_Boundary",
      region := none, geom := some buffered, crs := none, scale := none, image := none },
    { kind := TaskKind.table, descr := "BoundingBox_of_BufferedHUC_Export_" ++ hucId,
      folder := folder, fileStem := base ++ "_BoundingBox_of_5km_Buffered",
      region := none, geom := some rect, crs := none, scale := none, image := none },
    { kind := TaskKind.image, descr := "DEM_3DEP_Export_" ++ hucId,
      folder := folder, fileStem := base ++ "_DEM_10m_Rect",
      region := some rect, geom := none, crs := some targetDemCRS, scale := some 10,
      image := some (ImgExpr.toFloat (ImgExpr.clip
        (ImgExpr.selectBand (ImgExpr.asset "USGS/3DEP/10m") "elevation") rect)) },
    { kind := TaskKind.image, descr := "Landsat_Optical_Export_" ++ hucId,
      folder := folder, fileStem := base ++ "_Landsat_Optical_Rect",
      region := some rect, geom := none, crs := some "EPSG:4326", scale := some 30,
      image := some (ImgExpr.toFloat (ImgExpr.asset "Landsat_Optical_Median")) },
    { kind := TaskKind.image, descr := "Landsat_Thermal_Export_" ++ hucId,
      folder := folder, fileStem := base ++ "_Landsat_Thermal_Rect",
      region := some rect, geom := none, crs := some "EPSG:4326", scale := some 30,
      image := some (ImgExpr.toFloat (ImgExpr.asset "Landsat_Thermal_Median")) },
    { kind := TaskKind.image, descr := "SAR_VV_Export_" ++ hucId,
      folder := folder, fileStem := base ++ "_SAR_VV_Rect",
      region := some rect, geom := none, crs := some "EPSG:4326", scale := some 10,
      image := some (ImgExpr.toFloat (ImgExpr.asset "Sentinel1_VV_Median")) },
    { kind := TaskKind.image, descr := "FlowDir_10m_Export_" ++ hucId,
      folder := folder, fileStem := base ++ "_FlowDir_10m_Rect",
      region := some rect, geom := none, crs := some targetDemCRS, scale := some 10,
      image := some (flowDirImage coords) } ]

/-! Concrete scenario constants used by the testable-property claims. -/

/-- The 5000 m by 5000 m square watershed boundary of the concrete grid
scenario (section 8 of the spec). -/
def square5000 : List Pt := [⟨0, 0⟩, ⟨5000, 0⟩, ⟨5000, 5000⟩, ⟨0, 5000⟩]

/-- A DEM source covering the full export rectangle of the scenario at 10 m
resolution in the reference CRS. -/
def demScenario : RasterSource :=
  ⟨"DEM", 10, "EPSG:4269", ⟨1, 0, 1, 0⟩, ⟨0, 0, 5000, 5000⟩, -9999, fun _ => 0⟩

/-- A SAR source covering only a 3000 m by 3000 m square centered on the
scenario boundary. -/
def sarScenario : RasterSource :=
  ⟨"SAR", 10, "EPSG:4326", ⟨1, 0, 1, 0⟩, ⟨1000, 1000, 4000, 4000⟩, 0, fun _ => 1⟩

/-- A small U-shaped watershed, smaller than one patch, whose centroid falls
in the notch outside the polygon. -/
def notchPoly : List Pt :=
  [⟨0, 0⟩, ⟨10, 0⟩, ⟨10, 10⟩, ⟨8, 10⟩, ⟨8, 2⟩, ⟨2, 2⟩, ⟨2, 10⟩, ⟨0, 10⟩]

/-- A small square watershed, smaller than one patch, whose centroid lies
inside it. -/
def smallSquare : List Pt := [⟨0, 0⟩, ⟨10, 0⟩, ⟨10, 10⟩, ⟨0, 10⟩]

/-- The two duplicate-suffixed Boone export folders of the reconciliation
scenario (section 8 of the spec), the duplicated one holding the newer DEM. -/
def booneFolders : List Folder :=
  [⟨"HUC8_07080101_Boone", [⟨ArtifactType.dem, 100, "dem_first_export.tif"⟩]⟩,
   ⟨"HUC8_07080101_Boone (1)", [⟨ArtifactType.dem, 200, "dem_second_export.tif"⟩]⟩]

/-! Shared helper lemmas. -/

/-- A value paired in an enumeration is a member of the underlying list. -/
theorem snd_mem_of_mem_enum {α : Type} {l : List α} {i : ℕ} {a : α}
    (h : (i, a) ∈ l.enum) : a ∈ l := by
  have h2 : a ∈ l.enum.map Prod.snd := List.mem_map_of_mem Prod.snd h
  rwa [List.enum_map_snd] at h2

/-- Stripping one appended duplicate marker recovers the base folder name. -/
theorem stripDupSuffix_append_one (S : String) :
    stripDupSuffix (S ++ " (1)") = S := by
  have hdata : (S ++ " (1)").data = S.data ++ [' ', '(', '1', ')'] := by
    simp [String.data_append]
  have hrev : (S ++ " (1)").data.reverse = ')' :: '1' :: '(' :: ' ' :: S.data.reverse := by
    rw [hdata, List.reverse_append]
    rfl
  unfold stripDupSuffix
  rw [hrev]
  show (match stripDupAux (')' :: '1' :: '(' :: ' ' :: S.data.reverse) with
        | some base => String.mk base.reverse
        | none => S ++ " (1)") = S
  have haux : stripDupAux (')' :: '1' :: '(' :: ' ' :: S.data.reverse) =
      some S.data.reverse := by
    unfold stripDupAux
    simp [List.takeWhile, List.dropWhile, isDigitCh]
  rw [haux]
  simp

/-! Claim theorems. -/

/-- C8: the per-watershed export folder name is the fixed prefix HUC8_, the
huc8 id, an underscore, and the watershed name sanitized so that every
character outside the allowed class becomes an underscore; the resulting name
survives stripping of an externally appended duplicate marker, which is the
convention reconciliation relies on. -/
theorem c8_folder_convention (hucId nm : String) :
    hucFolderName hucId (some nm) = "HUC8_" ++ hucId ++ "_" ++ cleanName nm
    ∧ (∀ c ∈ (cleanName nm).data, allowedChar c = true)
    ∧ stripDupSuffix (hucFolderName hucId (some nm) ++ " (1)") =
        hucFolderName hucId (some nm) := by
  refine ⟨rfl, ?_, stripDupSuffix_append_one _⟩
  intro c hc
  obtain ⟨a, _, rfl⟩ := List.mem_map.mp hc
  by_cases h : allowedChar a
  · simp [h]
  · rw [if_neg h]
    rfl

/-- C8 witness: a concrete watershed name containing a space is sanitized and
the duplicate marker strips back off. -/
theorem c8_witness :
    hucFolderName "07080101" (some "Boone Creek") = "HUC8_07080101_Boone_Creek"
    ∧ allowedChar 'B' = true
    ∧ stripDupSuffix (hucFolderName "07080101" (some "Boone Creek") ++ " (1)") =
        hucFolderName "07080101" (some "Boone Creek") :=
  ⟨by decide, (c8_folder_convention "07080101" "Boone Creek").2.1 'B' (by decide),
   (c8_folder_convention "07080101" "Boone Creek").2.2⟩

/-- C9: the flow-direction export is the MERIT Hydro dir band reprojected into
the DEM's CRS (EPSG:4269) at the DEM's 10 m scale, with nearest-neighbor
resampling in force (the script calls no interpolating resample), and the
flow-direction task's CRS and scale agree with the DEM task's. -/
theorem c9_flowdir_resampling (coords hucId nm : String) :
    ((hucExportTasks coords hucId nm).get? 6).map (fun t => t.image) =
        some (some (flowDirImage coords))
    ∧ resampleOf (flowDirImage coords) = ResampleMethod.nearest
    ∧ ((hucExportTasks coords hucId nm).get? 6).map (fun t => (t.crs, t.scale)) =
        some (some targetDemCRS, some 10)
    ∧ ((hucExportTasks coords hucId nm).get? 2).map (fun t => (t.crs, t.scale)) =
        some (some targetDemCRS, some 10)
    ∧ targetDemCRS = "EPSG:4269" :=
  ⟨rfl, rfl, rfl, rfl, rfl⟩

/-- C10 counterexample: the first of the seven per-HUC export tasks, the
buffered polygon boundary export, covers the buffered polygon itself, which
is not the bounding rectangle used as the region of the raster exports. -/
theorem c10_counterexample :
    effRegion ((hucExportTasks "b" "07080101" "Boone").get ⟨0, by decide⟩) =
        some (GeomExpr.buffer (GeomExpr.multiPolygon "b") bufferDistanceMeters)
    ∧ GeomExpr.buffer (GeomExpr.multiPolygon "b") bufferDistanceMeters ≠
        GeomExpr.boundsOf (GeomExpr.buffer (GeomExpr.multiPolygon "b") bufferDistanceMeters) :=
  ⟨rfl, fun h => nomatch h⟩

/-- C10 amended: all five raster export tasks use the identical export region,
the bounding rectangle of the boundary buffered by bufferDistanceMeters; the
bounding-box vector export carries that same rectangle as its feature geometry
while the boundary vector export carries the buffered polygon itself; and the
optical, thermal and SAR rasters are exported in EPSG:4326 while the DEM and
flow direction use EPSG:4269. -/
theorem c10_export_regions (coords hucId nm : String) :
    (hucExportTasks coords hucId nm).length = 7
    ∧ (∀ i : Fin (hucExportTasks coords hucId nm).length,
        ((hucExportTasks coords hucId nm).get i).kind = TaskKind.image →
        ((hucExportTasks coords hucId nm).get i).region =
          some (GeomExpr.boundsOf
            (GeomExpr.buffer (GeomExpr.multiPolygon coords) bufferDistanceMeters)))
    ∧ ((hucExportTasks coords hucId nm).get? 1).map (fun t => t.geom) =
        some (some (GeomExpr.boundsOf
          (GeomExpr.buffer (GeomExpr.multiPolygon coords) bufferDistanceMeters)))
    ∧ ((hucExportTasks coords hucId nm).get? 0).map (fun t => t.geom) =
        some (some (GeomExpr.buffer (GeomExpr.multiPolygon coords) bufferDistanceMeters))
    ∧ ((hucExportTasks coords hucId nm).get? 3).map (fun t => t.crs) = some (some "EPSG:4326")
    ∧ ((hucExportTasks coords hucId nm).get? 4).map (fun t => t.crs) = some (some "EPSG:4326")
    ∧ ((hucExportTasks coords hucId nm).get? 5).map (fun t => t.crs) = some (some "EPSG:4326")
    ∧ ((hucExportTasks coords hucId nm).get? 2).map (fun t => t.crs) = some (some targetDemCRS)
    ∧ ((hucExportTasks coords hucId nm).get? 6).map (fun t => t.crs) = some (some targetDemCRS)
    ∧ "EPSG:4326" ≠ targetDemCRS := by
  refine ⟨rfl, ?_, rfl, rfl, rfl, rfl, rfl, rfl, rfl, by decide⟩
  intro i h
  fin_cases i <;> first | rfl | exact nomatch h

/-- C10 witness: the DEM task of a concrete watershed is an image task and its
region is the buffered bounding rectangle. -/
theorem c10_witness :
    ((hucExportTasks "b" "07080101" "Boone").get ⟨2, by decide⟩).region =
      some (GeomExpr.boundsOf
        (GeomExpr.buffer (GeomExpr.multiPolygon "b") bufferDistanceMeters)) :=
  (c10_export_regions "b" "07080101" "Boone").2.1 ⟨2, by decide⟩ rfl

/-- Every center point emitted by the generator passes the buffered
point-in-polygon containment test. -/
theorem mem_genCenterPts (poly : List Pt) (b s d : ℚ) (p : Pt)
    (hp : p ∈ genCenterPts poly b s d) : inBuffered poly b p = true := by
  simp only [genCenterPts] at hp
  split at hp
  · split at hp
    next hib =>
      rw [List.mem_singleton] at hp
      subst hp
      exact hib
    next hib => exact absurd hp (List.not_mem_nil _)
  · exact (List.mem_filter.mp hp).2

/-- C4: every generated patch center lies within the optionally buffered
boundary as decided by the point-in-polygon test; outside the small-watershed
case the output is exactly the row-major grid over the buffered bounding
rectangle, anchored at its minimum corner with spacing equal to the stride,
filtered by that containment test; and the generator is a pure function, so
repeated runs on identical inputs give the identical sequence. -/
theorem c4_containment_row_major (hid : String) (poly : List Pt) (b s d : ℚ)
    (hs : 0 < s) (hd : 0 < d) (hds : d ≤ s) :
    (∀ pc ∈ genCenters hid poly b s d, inBuffered poly b pc.pt = true)
    ∧ (smallWatershed (bufferRect (boundingRect poly) b) s = false →
        genCenterPts poly b s d =
          (rowMajorGridPts (bufferRect (boundingRect poly) b) d).filter (inBuffered poly b))
    ∧ genCenters hid poly b s d = genCenters hid poly b s d := by
  refine ⟨?_, ?_, rfl⟩
  · intro pc hpc
    obtain ⟨q, hq, rfl⟩ := List.mem_map.mp hpc
    exact mem_genCenterPts poly b s d q.2 (snd_mem_of_mem_enum hq)
  · intro hsm
    simp [genCenterPts, hsm]

/-- C4 witness: the concrete square scenario satisfies the hypotheses and the
containment, layout and determinism conclusions. -/
theorem c4_witness :
    (∀ pc ∈ genCenters "07080101" square5000 0 2560 2560,
        inBuffered square5000 0 pc.pt = true)
    ∧ (smallWatershed (bufferRect (boundingRect square5000) 0) 2560 = false →
        genCenterPts square5000 0 2560 2560 =
          (rowMajorGridPts (bufferRect (boundingRect square5000) 0) 2560).filter
            (inBuffered square5000 0))
    ∧ genCenters "07080101" square5000 0 2560 2560 =
        genCenters "07080101" square5000 0 2560 2560 :=
  c4_containment_row_major "07080101" square5000 0 2560 2560 (by norm_num) (by norm_num)
    (by norm_num)

/-- C7 counterexample: a watershed smaller than one patch whose clamped
centroid falls in a notch outside the boundary yields zero centers, not
exactly one. -/
theorem c7_counterexample :
    smallWatershed (bufferRect (boundingRect notchPoly) 0) 100 = true
    ∧ genCenters "small" notchPoly 0 100 100 = [] :=
  ⟨by with_unfolding_all rfl, by with_unfolding_all rfl⟩

/-- C7 amended: a watershed smaller than one patch yields at most one center;
any center it yields is the boundary centroid clamped toward the buffered
bounding rectangle (its midpoint in a dimension smaller than the patch); and
it yields exactly that center when the clamped centroid lies within the
optionally buffered boundary. -/
theorem c7_small_yields_clamped (hid : String) (poly : List Pt) (b s d : ℚ)
    (hsm : smallWatershed (bufferRect (boundingRect poly) b) s = true) :
    (genCenters hid poly b s d).length ≤ 1
    ∧ (∀ pc ∈ genCenters hid poly b s d, pc.pt = clampedCentroid poly b s)
    ∧ (inBuffered poly b (clampedCentroid poly b s) = true →
        genCenterPts poly b s d = [clampedCentroid poly b s]) := by
  have hpts : genCenterPts poly b s d =
      if inBuffered poly b (clampedCentroid poly b s) then [clampedCentroid poly b s]
      else [] := by
    simp [genCenterPts, hsm]
  refine ⟨?_, ?_, ?_⟩
  · show ((genCenterPts poly b s d).enum.map _).length ≤ 1
    rw [List.length_map, List.enum_length, hpts]
    split <;> simp
  · intro pc hpc
    obtain ⟨q, hq, rfl⟩ := List.mem_map.mp hpc
    have hq2 : q.2 ∈ genCenterPts poly b s d := snd_mem_of_mem_enum hq
    rw [hpts] at hq2
    split at hq2
    · exact List.mem_singleton.mp hq2
    · exact absurd hq2 (List.not_mem_nil _)
  · intro hib
    rw [hpts, if_pos hib]

/-- C7 witness: a small square watershed, whose clamped centroid is its
center, yields exactly that one center. -/
theorem c7_witness :
    genCenterPts smallSquare 0 100 100 = [clampedCentroid smallSquare 0 100] :=
  (c7_small_yields_clamped "w" smallSquare 0 100 100 (by with_unfolding_all rfl)).2.2
    (by with_unfolding_all rfl)

/-- C6 counterexample: the grid of the concrete square scenario is anchored at
the bounding rectangle's minimum corner, so its centers are not the four
quadrant centers of the square. -/
theorem c6_counterexample :
    genCenterPts square5000 0 2560 2560 ≠
      [⟨1250, 1250⟩, ⟨3750, 1250⟩, ⟨1250, 3750⟩, ⟨3750, 3750⟩] := by
  with_unfolding_all decide

/-- C6 amended: the square scenario yields exactly four centers in row-major
order at the grid positions anchored at the rectangle's minimum corner; with
minimum overlap fraction one fifth, the aligner marks all four DEM patches
valid and exactly one of the four SAR patches valid, the other three
invalid. -/
theorem c6_scenario_amended :
    genCenterPts square5000 0 2560 2560 =
      [⟨0, 0⟩, ⟨2560, 0⟩, ⟨0, 2560⟩, ⟨2560, 2560⟩]
    ∧ ((genCenterPts square5000 0 2560 2560).map
        (fun c => (mkPatch (1 / 5) 2560 c demScenario).valid)).count true = 4
    ∧ ((genCenterPts square5000 0 2560 2560).map
        (fun c => (mkPatch (1 / 5) 2560 c sarScenario).valid)).count true = 1
    ∧ ((genCenterPts square5000 0 2560 2560).map
        (fun c => (mkPatch (1 / 5) 2560 c sarScenario).valid)).count false = 3 :=
  ⟨by with_unfolding_all rfl, by with_unfolding_all rfl, by with_unfolding_all rfl,
   by with_unfolding_all rfl⟩

/-- Applying the inverse of a nonzero affine scalar map recovers the input. -/
theorem affine_inv_point (a b u : ℚ) (ha : a ≠ 0) :
    1 / a * (a * u + b) + -(b / a) = u := by
  field_simp

/-- Per-axis inversion of the corner renormalization of mapRect: pulling the
ordered image interval back through the inverse map recovers the original
ordered interval, for either sign of the scale factor. -/
theorem affine_inv_axis (a b u v : ℚ) (ha : a ≠ 0) (huv : u ≤ v) :
    min (1 / a * min (a * u + b) (a * v + b) + -(b / a))
        (1 / a * max (a * u + b) (a * v + b) + -(b / a)) = u
    ∧ max (1 / a * min (a * u + b) (a * v + b) + -(b / a))
        (1 / a * max (a * u + b) (a * v + b) + -(b / a)) = v := by
  rcases lt_or_gt_of_ne ha with hneg | hpos
  · have h1 : a * v + b ≤ a * u + b := by nlinarith
    rw [min_eq_right h1, max_eq_left h1, affine_inv_point a b u ha, affine_inv_point a b v ha]
    exact ⟨min_eq_right huv, max_eq_left huv⟩
  · have h1 : a * u + b ≤ a * v + b := by nlinarith
    rw [min_eq_left h1, max_eq_right h1, affine_inv_point a b u ha, affine_inv_point a b v ha]
    exact ⟨min_eq_left huv, max_eq_right huv⟩

/-- Mapping a proper rectangle into a source CRS and back through the inverse
transform recovers the rectangle exactly. -/
theorem mapRect_inv_cancel (t : CrsMap) (r : Rect) (hx : t.sx ≠ 0) (hy : t.sy ≠ 0)
    (h1 : r.xmin ≤ r.xmax) (h2 : r.ymin ≤ r.ymax) :
    mapRect t.inv (mapRect t r) = r := by
  obtain ⟨sx, tx, sy, ty⟩ := t
  obtain ⟨x1, y1, x2, y2⟩ := r
  have hx2 := affine_inv_axis sx tx x1 x2 hx h1
  have hy2 := affine_inv_axis sy ty y1 y2 hy h2
  simp only [mapRect, CrsMap.apply, CrsMap.inv]
  rw [Rect.mk.injEq]
  exact ⟨hx2.1, hy2.1, hx2.2, hy2.2⟩

/-- C1: every patch of a stack, valid or not, has a ground footprint equal to
the center plus or minus half the shared ground extent, recovered in ground
units through its own CRS transform, while its pixel count is derived from its
own native resolution; in particular all valid patches of one stack share the
identical ground footprint. -/
theorem c1_footprint_invariant (minOv s : ℚ) (c : Pt) (sources : List RasterSource)
    (hs : 0 < s)
    (hinv : ∀ src ∈ sources, src.toSrc.sx ≠ 0 ∧ src.toSrc.sy ≠ 0) :
    (∀ p ∈ (mkStack minOv s c sources).results,
        p.groundFootprint = groundWindow c s ∧ p.nx = pixCount p.srcWindow.width p.res)
    ∧ (∀ p ∈ (mkStack minOv s c sources).validPatches,
        ∀ q ∈ (mkStack minOv s c sources).validPatches,
          p.groundFootprint = q.groundFootprint) := by
  have hmain : ∀ p ∈ (mkStack minOv s c sources).results,
      p.groundFootprint = groundWindow c s ∧ p.nx = pixCount p.srcWindow.width p.res := by
    intro p hp
    obtain ⟨src, hsrc, rfl⟩ := List.mem_map.mp hp
    refine ⟨?_, rfl⟩
    show mapRect src.toSrc.inv (mapRect src.toSrc (groundWindow c s)) = groundWindow c s
    refine mapRect_inv_cancel src.toSrc (groundWindow c s) (hinv src hsrc).1
      (hinv src hsrc).2 ?_ ?_
    · show c.x - s / 2 ≤ c.x + s / 2
      linarith
    · show c.y - s / 2 ≤ c.y + s / 2
      linarith
  refine ⟨hmain, ?_⟩
  intro p hp q hq
  rw [(hmain p (List.mem_of_mem_filter hp)).1, (hmain q (List.mem_of_mem_filter hq)).1]

/-- C1 witness: in the concrete two-source scenario, the DEM patch's ground
footprint is exactly the ground window of its center. -/
theorem c1_witness :
    (mkPatch (1 / 5) 2560 ⟨2560, 2560⟩ demScenario).groundFootprint =
      groundWindow ⟨2560, 2560⟩ 2560 :=
  ((c1_footprint_invariant (1 / 5) 2560 ⟨2560, 2560⟩ [demScenario, sarScenario]
      (by norm_num)
      (fun src h => by
        fin_cases h
        · exact ⟨one_ne_zero, one_ne_zero⟩
        · exact ⟨one_ne_zero, one_ne_zero⟩)).1
    (mkPatch (1 / 5) 2560 ⟨2560, 2560⟩ demScenario) (List.mem_cons_self _ _)).1

/-- C5: the aligner never fails on a window that leaves the source extent: it
produces one result per source, fills pixels whose centers fall outside the
extent with that source's nodata value, marks a patch valid exactly when the
overlap fraction reaches the configured minimum, and when the overlap is below
the minimum that source's patch is marked invalid and excluded from the valid
patches while every other source is still processed independently; the stack
is usable exactly when the reference DEM patch is valid. -/
theorem c5_nodata_fill_and_validity (minOv s : ℚ) (c : Pt) (dem : RasterSource)
    (rest : List RasterSource) :
    (mkStack minOv s c (dem :: rest)).results.length = (dem :: rest).length
    ∧ (∀ src ∈ dem :: rest, ∀ i j : ℕ,
        src.extent.containsPt (pixelCenter (srcWindowOf src c s) src.res i j) = false →
        (mkPatch minOv s c src).pix i j = src.nodata)
    ∧ (∀ src ∈ dem :: rest,
        ((mkPatch minOv s c src).valid = true ↔
          minOv ≤ overlapFrac (srcWindowOf src c s) src.extent))
    ∧ (∀ src ∈ dem :: rest,
        overlapFrac (srcWindowOf src c s) src.extent < minOv →
        (mkPatch minOv s c src).valid = false ∧
          mkPatch minOv s c src ∉ (mkStack minOv s c (dem :: rest)).validPatches)
    ∧ (mkStack minOv s c (dem :: rest)).results = (dem :: rest).map (mkPatch minOv s c)
    ∧ ((mkStack minOv s c (dem :: rest)).usable = true ↔
        (mkPatch minOv s c dem).valid = true) := by
  refine ⟨List.length_map _ _, ?_, ?_, ?_, rfl, Iff.rfl⟩
  · intro src _ i j h
    show readPix src (srcWindowOf src c s) i j = src.nodata
    unfold readPix
    simp [h]
  · intro src _
    show decide (minOv ≤ overlapFrac (srcWindowOf src c s) src.extent) = true ↔ _
    exact ⟨of_decide_eq_true, fun h => decide_eq_true h⟩
  · intro src _ hov
    have hval : (mkPatch minOv s c src).valid = false := by
      show decide (minOv ≤ overlapFrac (srcWindowOf src c s) src.extent) = false
      exact decide_eq_false (not_le.mpr hov)
    refine ⟨hval, ?_⟩
    intro hmem
    have hmem2 := (List.mem_filter.mp hmem).2
    rw [hval] at hmem2
    exact Bool.false_ne_true hmem2

/-- C5 witness: in the concrete scenario, the SAR window of the corner center
overlaps the SAR extent below the minimum, so that SAR patch is invalid and
excluded while the stack construction still succeeds. -/
theorem c5_witness :
    (mkPatch (1 / 5) 2560 ⟨0, 0⟩ sarScenario).valid = false ∧
      mkPatch (1 / 5) 2560 ⟨0, 0⟩ sarScenario ∉
        (mkStack (1 / 5) 2560 ⟨0, 0⟩ [demScenario, sarScenario]).validPatches :=
  (c5_nodata_fill_and_validity (1 / 5) 2560 ⟨0, 0⟩ demScenario [sarScenario]).2.2.2.1
    sarScenario (List.mem_cons_of_mem _ (List.mem_cons_self _ _))
    (by with_unfolding_all decide)

/-- The left-to-right lexicographic minimum scan stays within the scanned
candidates. -/
theorem lexMinFold_mem (a : String × XFile) (l : List (String × XFile)) :
    lexMinFold a l ∈ a :: l := by
  induction l generalizing a with
  | nil => exact List.mem_cons_self a []
  | cons b bs ih =>
    by_cases hba : b.1 < a.1
    · rw [show lexMinFold a (b :: bs) = lexMinFold b bs from by simp [lexMinFold, hba]]
      exact List.mem_cons.mpr (Or.inr (ih b))
    · rw [show lexMinFold a (b :: bs) = lexMinFold a bs from by simp [lexMinFold, hba]]
      rcases List.mem_cons.mp (ih a) with h1 | h1
      · rw [h1]
        exact List.mem_cons_self _ _
      · exact List.mem_cons.mpr (Or.inr (List.mem_cons.mpr (Or.inr h1)))

/-- The scan result's folder name is lexicographically least among all scanned
candidates. -/
theorem lexMinFold_le (a : String × XFile) (l : List (String × XFile)) :
    ∀ x ∈ a :: l, (lexMinFold a l).1 ≤ x.1 := by
  induction l generalizing a with
  | nil =>
    intro x hx
    rcases List.mem_singleton.mp hx with rfl
    exact le_refl _
  | cons b bs ih =>
    intro x hx
    have hstep : lexMinFold a (b :: bs) = lexMinFold (if b.1 < a.1 then b else a) bs := rfl
    have hmin_a : (if b.1 < a.1 then b else a).1 ≤ a.1 := by
      split
      · exact le_of_lt (by assumption)
      · exact le_refl _
    have hmin_b : (if b.1 < a.1 then b else a).1 ≤ b.1 := by
      split
      · exact le_refl _
      · exact not_lt.mp (by assumption)
    have hres : (lexMinFold (if b.1 < a.1 then b else a) bs).1 ≤
        (if b.1 < a.1 then b else a).1 :=
      ih _ _ (List.mem_cons_self _ _)
    rcases List.mem_cons.mp hx with rfl | hx2
    · rw [hstep]
      exact le_trans hres hmin_a
    · rcases List.mem_cons.mp hx2 with rfl | hx3
      · rw [hstep]
        exact le_trans hres hmin_b
      · rw [hstep]
        exact ih _ x (List.mem_cons.mpr (Or.inr hx3))

/-- A max-scan over modification times never drops below its accumulator. -/
theorem foldl_max_init_le (l : List (String × XFile)) (i : ℤ) :
    i ≤ l.foldl (fun m y => max m y.2.mtime) i := by
  induction l generalizing i with
  | nil => exact le_refl i
  | cons b bs ih => exact le_trans (le_max_left i b.2.mtime) (ih (max i b.2.mtime))

/-- A max-scan over modification times dominates every scanned time. -/
theorem foldl_max_mem_le (l : List (String × XFile)) (i : ℤ) :
    ∀ x ∈ l, x.2.mtime ≤ l.foldl (fun m y => max m y.2.mtime) i := by
  induction l generalizing i with
  | nil =>
    intro x hx
    exact absurd hx (List.not_mem_nil x)
  | cons b bs ih =>
    intro x hx
    rcases List.mem_cons.mp hx with rfl | h2
    · exact le_trans (le_max_right i x.2.mtime) (foldl_max_init_le bs _)
    · exact ih (max i b.2.mtime) x h2

/-- Every candidate's modification time is at most the group maximum. -/
theorem mtime_le_maxMtime (cands : List (String × XFile)) :
    ∀ x ∈ cands, x.2.mtime ≤ maxMtime cands := by
  cases cands with
  | nil =>
    intro x hx
    exact absurd hx (List.not_mem_nil x)
  | cons c cs =>
    intro x hx
    rcases List.mem_cons.mp hx with rfl | h2
    · exact foldl_max_init_le cs x.2.mtime
    · exact foldl_max_mem_le cs c.2.mtime x h2

/-- A max-scan either returns its accumulator or the time of some element. -/
theorem foldl_max_acc_or_mem (l : List (String × XFile)) (i : ℤ) :
    l.foldl (fun m y => max m y.2.mtime) i = i ∨
      ∃ x ∈ l, l.foldl (fun m y => max m y.2.mtime) i = x.2.mtime := by
  induction l generalizing i with
  | nil => exact Or.inl rfl
  | cons b bs ih =>
    have hcons : (b :: bs).foldl (fun m y => max m y.2.mtime) i =
        bs.foldl (fun m y => max m y.2.mtime) (max i b.2.mtime) := rfl
    rcases ih (max i b.2.mtime) with h | ⟨x, hx, heq⟩
    · rcases max_choice i b.2.mtime with hm | hm
      · exact Or.inl (by rw [hcons, h, hm])
      · exact Or.inr ⟨b, List.mem_cons_self _ _, by rw [hcons, h, hm]⟩
    · exact Or.inr ⟨x, List.mem_cons.mpr (Or.inr hx), by rw [hcons, heq]⟩

/-- The group maximum of a nonempty candidate list is achieved. -/
theorem maxMtime_achieved (cands : List (String × XFile)) (hne : cands ≠ []) :
    ∃ x ∈ cands, x.2.mtime = maxMtime cands := by
  cases cands with
  | nil => exact absurd rfl hne
  | cons c cs =>
    rcases foldl_max_acc_or_mem cs c.2.mtime with h | ⟨x, hx, heq⟩
    · exact ⟨c, List.mem_cons_self _ _, h.symm⟩
    · exact ⟨x, List.mem_cons.mpr (Or.inr hx), heq.symm⟩

/-- Full characterization of the merge policy: on a nonempty candidate list
with a nonnegative tolerance, selection returns a candidate that is within the
tolerance of the most recent modification time and whose folder name is
lexicographically least among all such candidates. -/
theorem selectBest_spec (tol : ℤ) (cands : List (String × XFile)) (htol : 0 ≤ tol)
    (hne : cands ≠ []) :
    ∃ fn x, selectBest tol cands = some (fn, x)
      ∧ (fn, x) ∈ cands
      ∧ maxMtime cands - x.mtime ≤ tol
      ∧ (∀ c ∈ cands, maxMtime cands - c.2.mtime ≤ tol → fn ≤ c.1) := by
  obtain ⟨m, hm, hmeq⟩ := maxMtime_achieved cands hne
  have hmfilt : m ∈ cands.filter (fun x => decide (maxMtime cands - x.2.mtime ≤ tol)) := by
    refine List.mem_filter.mpr ⟨hm, decide_eq_true ?_⟩
    rw [hmeq, sub_self]
    exact htol
  cases hfilt : cands.filter (fun x => decide (maxMtime cands - x.2.mtime ≤ tol)) with
  | nil =>
    rw [hfilt] at hmfilt
    exact absurd hmfilt (List.not_mem_nil m)
  | cons e es =>
    have hsel : selectBest tol cands = some (lexMinFold e es) := by
      unfold selectBest
      rw [hfilt]
    have hlmem : lexMinFold e es ∈ cands.filter
        (fun x => decide (maxMtime cands - x.2.mtime ≤ tol)) := by
      rw [hfilt]
      exact lexMinFold_mem e es
    refine ⟨(lexMinFold e es).1, (lexMinFold e es).2, hsel, ?_, ?_, ?_⟩
    · exact List.mem_of_mem_filter hlmem
    · exact of_decide_eq_true (List.mem_filter.mp hlmem).2
    · intro c hc hcel
      have hcf : c ∈ cands.filter (fun x => decide (maxMtime cands - x.2.mtime ≤ tol)) :=
        List.mem_filter.mpr ⟨hc, decide_eq_true hcel⟩
      rw [hfilt] at hcf
      exact lexMinFold_le e es c hcf

/-- Every candidate for an artifact type carries that artifact type. -/
theorem candidatesFor_atype (folders : List Folder) (k : String) (t : ArtifactType) :
    ∀ c ∈ candidatesFor folders k t, c.2.atype = t := by
  intro c hc
  unfold candidatesFor at hc
  obtain ⟨f, _, hcf⟩ := List.mem_flatMap.mp hc
  obtain ⟨x, hx, rfl⟩ := List.mem_map.mp hcf
  exact beq_iff_eq.mp (List.mem_filter.mp hx).2

/-- A selected candidate comes from the candidate list. -/
theorem selectBest_mem (tol : ℤ) (cands : List (String × XFile)) (c : String × XFile)
    (h : selectBest tol cands = some c) : c ∈ cands := by
  cases hfilt : cands.filter (fun x => decide (maxMtime cands - x.2.mtime ≤ tol)) with
  | nil =>
    have h2 : selectBest tol cands = none := by
      unfold selectBest
      rw [hfilt]
    rw [h2] at h
    exact absurd h (by simp)
  | cons e es =>
    have h2 : selectBest tol cands = some (lexMinFold e es) := by
      unfold selectBest
      rw [hfilt]
    rw [h2] at h
    have hc : c = lexMinFold e es := (Option.some.inj h).symm
    rw [hc]
    refine List.mem_of_mem_filter (p := fun x => decide (maxMtime cands - x.2.mtime ≤ tol)) ?_
    rw [hfilt]
    exact lexMinFold_mem e es

/-- C3: for a watershed group and artifact type with at least one candidate,
reconciliation selects a candidate within the tolerance of the most recent
modification time, lexicographically first among the tolerance-eligible
folders (so a strictly newest candidate always wins, and near-simultaneous
candidates fall back to the lowest-suffix folder), and places the selected
file in the canonical directory under the fixed type-specific filename. -/
theorem c3_merge_policy (tol : ℤ) (folders : List Folder) (k : String) (t : ArtifactType)
    (htol : 0 ≤ tol) (hne : candidatesFor folders k t ≠ []) :
    ∃ fn x, selectBest tol (candidatesFor folders k t) = some (fn, x)
      ∧ (fn, x) ∈ candidatesFor folders k t
      ∧ maxMtime (candidatesFor folders k t) - x.mtime ≤ tol
      ∧ (∀ c ∈ candidatesFor folders k t, c.2.mtime ≤ maxMtime (candidatesFor folders k t))
      ∧ (∀ c ∈ candidatesFor folders k t,
          maxMtime (candidatesFor folders k t) - c.2.mtime ≤ tol → fn ≤ c.1)
      ∧ (⟨t, canonicalFilename t, x⟩ : CanonEntry) ∈ (reconcileKey tol folders k).entries := by
  obtain ⟨fn, x, hsel, hmem, hel, hlex⟩ :=
    selectBest_spec tol (candidatesFor folders k t) htol hne
  refine ⟨fn, x, hsel, hmem, hel, mtime_le_maxMtime _, hlex, ?_⟩
  refine List.mem_filterMap.mpr ⟨t, ?_, ?_⟩
  · cases t <;> simp [allTypes]
  · rw [hsel]
    rfl

/-- C3 witness: for the two Boone folders where the duplicated folder holds
the strictly newer DEM file, selection picks it and the canonical directory
contains only that file under the fixed DEM filename. -/
theorem c3_witness :
    (∃ fn x,
        selectBest 0 (candidatesFor booneFolders "HUC8_07080101_Boone" ArtifactType.dem) =
          some (fn, x)
        ∧ (fn, x) ∈ candidatesFor booneFolders "HUC8_07080101_Boone" ArtifactType.dem
        ∧ maxMtime (candidatesFor booneFolders "HUC8_07080101_Boone" ArtifactType.dem)
            - x.mtime ≤ 0
        ∧ (∀ c ∈ candidatesFor booneFolders "HUC8_07080101_Boone" ArtifactType.dem,
            c.2.mtime ≤
              maxMtime (candidatesFor booneFolders "HUC8_07080101_Boone" ArtifactType.dem))
        ∧ (∀ c ∈ candidatesFor booneFolders "HUC8_07080101_Boone" ArtifactType.dem,
            maxMtime (candidatesFor booneFolders "HUC8_07080101_Boone" ArtifactType.dem)
              - c.2.mtime ≤ 0 → fn ≤ c.1)
        ∧ (⟨ArtifactType.dem, canonicalFilename ArtifactType.dem, x⟩ : CanonEntry) ∈
            (reconcileKey 0 booneFolders "HUC8_07080101_Boone").entries)
    ∧ (reconcileKey 0 booneFolders "HUC8_07080101_Boone").entries =
        [⟨ArtifactType.dem, "DEM.tif", ⟨ArtifactType.dem, 200, "dem_second_export.tif"⟩⟩] :=
  ⟨c3_merge_policy 0 booneFolders "HUC8_07080101_Boone" ArtifactType.dem (le_refl 0)
      (by decide),
   by decide⟩

/-- Filtering the canonical entries for a type absent from the enumeration
yields nothing. -/
theorem filter_filterMap_nil {g : ArtifactType → Option CanonEntry}
    (hg : ∀ t2 e, g t2 = some e → e.atype = t2) (t : ArtifactType) :
    ∀ (l : List ArtifactType), t ∉ l →
      (l.filterMap g).filter (fun e => e.atype == t) = [] := by
  intro l
  induction l with
  | nil => intro _; rfl
  | cons a as ih =>
    intro hnm
    have hna : t ≠ a := fun h => hnm (h ▸ List.mem_cons_self a as)
    have hnas : t ∉ as := fun h => hnm (List.mem_cons.mpr (Or.inr h))
    cases hga : g a with
    | none => simpa [List.filterMap_cons, hga] using ih hnas
    | some e =>
      have hat : (e.atype == t) = false := by
        rw [beq_eq_false_iff_ne, hg a e hga]
        exact fun h => hna h.symm
      simpa [List.filterMap_cons, hga, List.filter_cons, hat] using ih hnas

/-- Over a duplicate-free type enumeration, the canonical entries hold at most
one file per artifact type. -/
theorem filter_filterMap_le_one {g : ArtifactType → Option CanonEntry}
    (hg : ∀ t2 e, g t2 = some e → e.atype = t2) (t : ArtifactType) :
    ∀ (l : List ArtifactType), l.Nodup →
      ((l.filterMap g).filter (fun e => e.atype == t)).length ≤ 1 := by
  intro l
  induction l with
  | nil =>
    intro _
    simp
  | cons a as ih =>
    intro hnd
    have hna : a ∉ as := (List.nodup_cons.mp hnd).1
    have hnd2 : as.Nodup := (List.nodup_cons.mp hnd).2
    cases hga : g a with
    | none => simpa [List.filterMap_cons, hga] using ih hnd2
    | some e =>
      by_cases hat : a = t
      · subst hat
        have he : (e.atype == a) = true := by
          rw [hg a e hga]
          exact beq_self_eq_true a
        simp [List.filterMap_cons, hga, List.filter_cons, he,
          filter_filterMap_nil hg a as hna]
      · have he : (e.atype == t) = false := by
          rw [beq_eq_false_iff_ne, hg a e hga]
          exact hat
        simpa [List.filterMap_cons, hga, List.filter_cons, he] using ih hnd2

/-- The entry builder of reconcileKey tags every entry with its type. -/
theorem reconcileKey_g_atype (tol : ℤ) (folders : List Folder) (k : String) :
    ∀ (t : ArtifactType) (e : CanonEntry),
      (selectBest tol (candidatesFor folders k t)).map
        (fun c => (⟨t, canonicalFilename t, c.2⟩ : CanonEntry)) = some e →
      e.atype = t := by
  intro t e he
  cases hsel : selectBest tol (candidatesFor folders k t) with
  | none =>
    rw [hsel] at he
    exact absurd he (by simp)
  | some c =>
    rw [hsel] at he
    have he2 : (⟨t, canonicalFilename t, c.2⟩ : CanonEntry) = e := Option.some.inj he
    rw [← he2]

/-- The entry builder of reconcileKey stores a file of the entry's type. -/
theorem reconcileKey_g_file_atype (tol : ℤ) (folders : List Folder) (k : String) :
    ∀ (t : ArtifactType) (e : CanonEntry),
      (selectBest tol (candidatesFor folders k t)).map
        (fun c => (⟨t, canonicalFilename t, c.2⟩ : CanonEntry)) = some e →
      e.file.atype = t := by
  intro t e he
  cases hsel : selectBest tol (candidatesFor folders k t) with
  | none =>
    rw [hsel] at he
    exact absurd he (by simp)
  | some c =>
    rw [hsel] at he
    have he2 : (⟨t, canonicalFilename t, c.2⟩ : CanonEntry) = e := Option.some.inj he
    rw [← he2]
    exact candidatesFor_atype folders k t c (selectBest_mem tol _ c hsel)

/-- Filtering the files of canonical entries for a type absent from the
enumeration yields nothing. -/
theorem map_file_filter_nil {g : ArtifactType → Option CanonEntry}
    (hg : ∀ t2 e, g t2 = some e → e.file.atype = t2) (t : ArtifactType) :
    ∀ (l : List ArtifactType), t ∉ l →
      ((l.filterMap g).map (fun e => e.file)).filter (fun x => x.atype == t) = [] := by
  intro l
  induction l with
  | nil => intro _; rfl
  | cons a as ih =>
    intro hnm
    have hna : t ≠ a := fun h => hnm (h ▸ List.mem_cons_self a as)
    have hnas : t ∉ as := fun h => hnm (List.mem_cons.mpr (Or.inr h))
    cases hga : g a with
    | none => simpa [List.filterMap_cons, hga] using ih hnas
    | some e =>
      have hat : (e.file.atype == t) = false := by
        rw [beq_eq_false_iff_ne, hg a e hga]
        exact fun h => hna h.symm
      simpa [List.filterMap_cons, hga, List.filter_cons, hat] using ih hnas

/-- Over a duplicate-free type enumeration, the files of the canonical entries
filtered to one type are exactly the selected file for that type. -/
theorem map_file_filter_of_nodup {g : ArtifactType → Option CanonEntry}
    (hg : ∀ t2 e, g t2 = some e → e.file.atype = t2) (t : ArtifactType) :
    ∀ (l : List ArtifactType), l.Nodup → t ∈ l →
      ((l.filterMap g).map (fun e => e.file)).filter (fun x => x.atype == t) =
        (match g t with
         | some e => [e.file]
         | none => []) := by
  intro l
  induction l with
  | nil =>
    intro _ ht
    exact absurd ht (List.not_mem_nil t)
  | cons a as ih =>
    intro hnd ht
    have hna : a ∉ as := (List.nodup_cons.mp hnd).1
    have hnd2 : as.Nodup := (List.nodup_cons.mp hnd).2
    by_cases hat : a = t
    · subst hat
      cases hga : g a with
      | none =>
        simpa [List.filterMap_cons, hga] using map_file_filter_nil hg a as hna
      | some e =>
        have hfa : (e.file.atype == a) = true := by
          rw [hg a e hga]
          exact beq_self_eq_true a
        simp [List.filterMap_cons, hga, List.filter_cons, hfa,
          map_file_filter_nil hg a as hna]
    · have ht2 : t ∈ as := by
        rcases List.mem_cons.mp ht with h | h
        · exact absurd h.symm hat
        · exact h
      cases hga : g a with
      | none => simpa [List.filterMap_cons, hga] using ih hnd2 ht2
      | some e =>
        have hfa : (e.file.atype == t) = false := by
          rw [beq_eq_false_iff_ne, hg a e hga]
          exact hat
        simpa [List.filterMap_cons, hga, List.filter_cons, hfa] using ih hnd2 ht2

/-- Filtering the canonical directory's files to one artifact type yields
exactly the file selected on the first run for that type. -/
theorem canon_files_filter (tol : ℤ) (folders : List Folder) (k : String) (t : ArtifactType) :
    (CanonDir.toFolder (reconcileKey tol folders k)).files.filter (fun x => x.atype == t) =
      (match selectBest tol (candidatesFor folders k t) with
       | some c => [c.2]
       | none => []) := by
  cases hsel : selectBest tol (candidatesFor folders k t) with
  | none =>
    have h := map_file_filter_of_nodup (reconcileKey_g_file_atype tol folders k) t allTypes
      (by decide) (by cases t <;> simp [allTypes])
    rw [hsel] at h
    exact h
  | some c =>
    have h := map_file_filter_of_nodup (reconcileKey_g_file_atype tol folders k) t allTypes
      (by decide) (by cases t <;> simp [allTypes])
    rw [hsel] at h
    exact h

/-- Among canonical folders with duplicate-free, suffix-free keys, filtering
for one group key finds exactly that group's canonical folder. -/
theorem filter_canon_folders (G : String → Folder) (hGname : ∀ k2, (G k2).name = k2)
    (k : String) :
    ∀ (ks : List String), ks.Nodup → (∀ k2 ∈ ks, stripDupSuffix k2 = k2) → k ∈ ks →
      (ks.map G).filter (fun f => stripDupSuffix f.name == k) = [G k] := by
  intro ks
  induction ks with
  | nil =>
    intro _ _ hk
    exact absurd hk (List.not_mem_nil k)
  | cons a as ih =>
    intro hnd hfix hk
    have hna : a ∉ as := (List.nodup_cons.mp hnd).1
    have hnd2 : as.Nodup := (List.nodup_cons.mp hnd).2
    have hfa : stripDupSuffix a = a := hfix a (List.mem_cons_self a as)
    by_cases hak : a = k
    · subst hak
      have hpa : (stripDupSuffix (G a).name == a) = true := by
        rw [hGname a, hfa]
        exact beq_self_eq_true a
      have htail : (as.map G).filter (fun f => stripDupSuffix f.name == a) = [] := by
        refine List.filter_eq_nil_iff.mpr ?_
        intro f hf
        obtain ⟨k2, hk2, rfl⟩ := List.mem_map.mp hf
        rw [hGname k2, hfix k2 (List.mem_cons.mpr (Or.inr hk2))]
        intro hbeq
        exact hna (beq_iff_eq.mp hbeq ▸ hk2)
      simp [List.filter_cons, hpa, htail]
    · have hpa : (stripDupSuffix (G a).name == k) = false := by
        rw [hGname a, hfa, beq_eq_false_iff_ne]
        exact hak
      have hk2 : k ∈ as := by
        rcases List.mem_cons.mp hk with h | h
        · exact absurd h.symm hak
        · exact h
      simp only [List.map_cons, List.filter_cons, hpa]
      show (as.map G).filter (fun f => stripDupSuffix f.name == k) = [G k]
      exact ih hnd2 (fun k2 h => hfix k2 (List.mem_cons.mpr (Or.inr h))) hk2

/-- On the reconciled state, the candidates of a group and type are exactly
the file selected on the first run, tagged with the group key. -/
theorem candidatesFor_reconciled (tol : ℤ) (folders : List Folder) (k : String)
    (t : ArtifactType)
    (hfix : ∀ k2 ∈ keysOf folders, stripDupSuffix k2 = k2) (hk : k ∈ keysOf folders) :
    candidatesFor ((reconcile tol folders).map CanonDir.toFolder) k t =
      (match selectBest tol (candidatesFor folders k t) with
       | some c => [(k, c.2)]
       | none => []) := by
  have hmapmap : (reconcile tol folders).map CanonDir.toFolder =
      (keysOf folders).map (fun k2 => CanonDir.toFolder (reconcileKey tol folders k2)) := by
    unfold reconcile
    rw [List.map_map]
    rfl
  have hLHS : candidatesFor ((reconcile tol folders).map CanonDir.toFolder) k t =
      (((CanonDir.toFolder (reconcileKey tol folders k)).files.filter
        (fun x => x.atype == t)).map
          (fun x => ((CanonDir.toFolder (reconcileKey tol folders k)).name, x))) := by
    unfold candidatesFor
    rw [hmapmap, filter_canon_folders
      (fun k2 => CanonDir.toFolder (reconcileKey tol folders k2)) (fun k2 => rfl) k
      (keysOf folders) (List.nodup_dedup _) hfix hk]
    simp
  rw [hLHS, canon_files_filter tol folders k t]
  cases selectBest tol (candidatesFor folders k t) with
  | none => rfl
  | some c => rfl

/-- Selection from a single candidate returns that candidate whenever the
tolerance is nonnegative. -/
theorem selectBest_singleton (tol : ℤ) (htol : 0 ≤ tol) (fn : String) (y : XFile) :
    selectBest tol [(fn, y)] = some (fn, y) := by
  have h : (decide (maxMtime [(fn, y)] - (fn, y).2.mtime ≤ tol)) = true := by
    refine decide_eq_true ?_
    show y.mtime - y.mtime ≤ tol
    omega
  unfold selectBest
  rw [show ([(fn, y)].filter (fun x => decide (maxMtime [(fn, y)] - x.2.mtime ≤ tol))) =
      [(fn, y)] from by rw [List.filter_cons, if_pos h]; rfl]
  rfl

/-- Reconciling a group on the reconciled state reproduces the first run's
canonical directory. -/
theorem reconcileKey_reconciled (tol : ℤ) (folders : List Folder) (k : String)
    (htol : 0 ≤ tol)
    (hfix : ∀ k2 ∈ keysOf folders, stripDupSuffix k2 = k2) (hk : k ∈ keysOf folders) :
    reconcileKey tol ((reconcile tol folders).map CanonDir.toFolder) k =
      reconcileKey tol folders k := by
  unfold reconcileKey
  rw [CanonDir.mk.injEq]
  refine ⟨rfl, List.filterMap_congr ?_⟩
  intro t _
  rw [candidatesFor_reconciled tol folders k t hfix hk]
  cases selectBest tol (candidatesFor folders k t) with
  | none => rfl
  | some c =>
    rw [selectBest_singleton tol htol k c.2]
    rfl

/-- Reconciliation leaves the set of group keys unchanged when base names are
free of duplicate markers. -/
theorem keysOf_reconciled (tol : ℤ) (folders : List Folder)
    (hfix : ∀ k ∈ keysOf folders, stripDupSuffix k = k) :
    keysOf ((reconcile tol folders).map CanonDir.toFolder) = keysOf folders := by
  show (((reconcile tol folders).map CanonDir.toFolder).map
    (fun f => stripDupSuffix f.name)).dedup = keysOf folders
  rw [show ((reconcile tol folders).map CanonDir.toFolder).map
      (fun f => stripDupSuffix f.name) =
      (keysOf folders).map (fun k => stripDupSuffix k) from by
    unfold reconcile
    rw [List.map_map, List.map_map]
    rfl]
  rw [List.map_congr_left hfix, List.map_id']
  exact List.dedup_idem

/-- C2: after reconciliation each canonical directory holds at most one file
per artifact type, for any input folders and modification times; and when the
base folder names carry no residual duplicate marker, reconciling the
reconciled state reproduces it exactly, so a second run is a no-op. -/
theorem c2_at_most_one_and_idempotent (tol : ℤ) (folders : List Folder) (htol : 0 ≤ tol)
    (hkeys : ∀ f ∈ folders,
      stripDupSuffix (stripDupSuffix f.name) = stripDupSuffix f.name) :
    (∀ cd ∈ reconcile tol folders, ∀ t : ArtifactType,
        (cd.entries.filter (fun e => e.atype == t)).length ≤ 1)
    ∧ reconcile tol ((reconcile tol folders).map CanonDir.toFolder) =
        reconcile tol folders := by
  have hfix : ∀ k ∈ keysOf folders, stripDupSuffix k = k := by
    intro k hk
    obtain ⟨f, hf, rfl⟩ := List.mem_map.mp (List.mem_dedup.mp hk)
    exact hkeys f hf
  constructor
  · intro cd hcd t
    obtain ⟨k, _, rfl⟩ := List.mem_map.mp hcd
    exact filter_filterMap_le_one (reconcileKey_g_atype tol folders k) t allTypes (by decide)
  · show (keysOf ((reconcile tol folders).map CanonDir.toFolder)).map
      (reconcileKey tol ((reconcile tol folders).map CanonDir.toFolder)) =
        (keysOf folders).map (reconcileKey tol folders)
    rw [keysOf_reconciled tol folders hfix]
    refine List.map_congr_left ?_
    intro k hk
    exact reconcileKey_reconciled tol folders k htol hfix hk

/-- C2 witness: the Boone folders satisfy the hypotheses, their reconciliation
has at most one file per type, and a second run reproduces it. -/
theorem c2_witness :
    (∀ cd ∈ reconcile 0 booneFolders, ∀ t : ArtifactType,
        (cd.entries.filter (fun e => e.atype == t)).length ≤ 1)
    ∧ reconcile 0 ((reconcile 0 booneFolders).map CanonDir.toFolder) =
        reconcile 0 booneFolders :=
  c2_at_most_one_and_idempotent 0 booneFolders (le_refl 0) (by decide)

end NationalML
